import Mathlib

/-!
Shallow embedding of the `command_system` repository's command-execution and
chain-orchestration core (src/src/command/traits.rs, src/src/command/shell_command.rs,
src/src/command/composite_command.rs, src/src/chain/command_chain.rs,
src/src/builder/command_builder.rs), together with proofs settling the frozen
claims about its specification.

Modelling conventions:
* `async` Rust functions become pure Lean functions; the outcomes supplied by the
  operating-system environment (process spawning, the tokio timeout race, file
  reads, interactive stdin) are passed in as explicit parameters.
* `Result<T, CommandError>` becomes `Except CommandError T`.
* A trait object `Arc<dyn Command>` is embedded as a record of the behaviours the
  chain/composite code observes through the trait: its name, the outcome of one
  `execute()` call, the outcome of one `rollback()` call, its `supports_rollback`
  flag and its `execution_mode`.
* `CommandResult`'s generated `id` (Uuid::new_v4) and the `start_time`/`end_time`/
  `duration_ms` timestamps are produced by the ambient environment and are not
  inspected by any code path a claim mentions; they are omitted from the record.
* Where a routine's side effect (which commands get rolled back, in which order)
  matters to a claim, the embedding returns that call trace explicitly as a list
  of command names alongside the Rust function's return value.
-/

/-- `ExecutionMode` from src/src/command/traits.rs. -/
inductive ExecutionMode
  | Sequential
  | Parallel
deriving DecidableEq, Repr

/-- `CommandError` from src/src/command/traits.rs. The five variants carry the
payloads the Rust enum carries; `IoError` holds the rendered `std::io::Error`
message (the code only forwards or formats it). Note the enum has no
`ParseError` variant. -/
inductive CommandError
  | ExecutionError (msg : String)
  | RollbackError (msg : String)
  | TimeoutError
  | Interrupted (msg : String)
  | IoError (msg : String)
deriving DecidableEq, Repr

/-- The `thiserror` `Display` rendering of `CommandError` (the `#[error("...")]`
attributes in src/src/command/traits.rs), used by the chain and composite code
via `err.to_string()` / `format!("{}", err)`. -/
def CommandError.toString : CommandError → String
  | .ExecutionError m => "Ошибка выполнения: " ++ m
  | .RollbackError m => "Ошибка отката: " ++ m
  | .TimeoutError => "Таймаут выполнения"
  | .Interrupted m => "Команда прервана: " ++ m
  | .IoError m => "Ошибка ввода/вывода: " ++ m

/-- `CommandResult` from src/src/command/traits.rs, without the environment
generated `id`/timestamp fields (see the module comment). -/
structure CommandResult where
  command_name : String
  success : Bool
  output : String
  error : Option String
  exit_code : Option Int
deriving DecidableEq, Repr

/-- `CommandResult::new` (traits.rs): fresh result, not yet marked. -/
def CommandResult.new (command_name : String) : CommandResult :=
  { command_name := command_name, success := false, output := "", error := none, exit_code := none }

/-- `CommandResult::success(self, output)` (traits.rs), renamed because the Lean
field `success` occupies the name. -/
def CommandResult.markSuccess (r : CommandResult) (output : String) : CommandResult :=
  { r with success := true, output := output }

/-- `CommandResult::failure(self, error, exit_code)` (traits.rs). -/
def CommandResult.markFailure (r : CommandResult) (error : String) (exit_code : Option Int) : CommandResult :=
  { r with success := false, error := some error, exit_code := exit_code }

instance {ε α : Type} [DecidableEq ε] [DecidableEq α] : DecidableEq (Except ε α) := fun a b =>
  match a, b with
  | .error x, .error y =>
    if h : x = y then .isTrue (by rw [h]) else .isFalse (by intro hc; cases hc; exact h rfl)
  | .error _, .ok _ => .isFalse (by intro hc; cases hc)
  | .ok _, .error _ => .isFalse (by intro hc; cases hc)
  | .ok x, .ok y =>
    if h : x = y then .isTrue (by rw [h]) else .isFalse (by intro hc; cases hc; exact h rfl)

/-- A trait object `Arc<dyn Command>` as observed by `CommandChain` and
`CompositeCommand`: the behaviours reachable through the `Command` /
`CommandExecution` traits (src/src/command/traits.rs). `executeResult` is the
outcome of calling `execute()` once, `rollbackResult` of calling `rollback()`
once. -/
structure Command where
  name : String
  executeResult : Except CommandError CommandResult
  rollbackResult : Except CommandError CommandResult
  supports_rollback : Bool
  execution_mode : ExecutionMode
deriving DecidableEq

/-- `ChainExecutionMode` from src/src/chain/command_chain.rs. -/
inductive ChainExecutionMode
  | Sequential
  | Parallel
  | Auto
deriving DecidableEq, Repr

/-- `ChainResult` from src/src/chain/command_chain.rs. -/
structure ChainResult where
  results : List CommandResult
  success : Bool
  error : Option String
deriving DecidableEq, Repr

/-- `CommandChain` (src/src/chain/command_chain.rs): name, command list, mode and
the rollback-on-error flag. The optional logger is an external collaborator whose
calls carry no data back into the core, so it is not modelled. -/
structure CommandChain where
  name : String
  commands : List Command
  mode : ChainExecutionMode
  rollback_on_error : Bool

/-- One step of the loop in `CommandChain::rollback_commands`
(command_chain.rs lines 388-431): the input list is already reversed; each
command that `supports_rollback` has `rollback()` invoked on it (logging its
outcome), the others are only logged.  The returned trace lists the names of
the commands whose `rollback()` was actually invoked, in invocation order. -/
def rollback_loop : List Command → List String
  | [] => []
  | c :: rest => (if c.supports_rollback then [c.name] else []) ++ rollback_loop rest

/-- `CommandChain::rollback_commands` (command_chain.rs lines 382-432): iterates
the given (already-executed) commands in reverse order. -/
def CommandChain.rollback_commands (commands : List Command) : List String :=
  rollback_loop commands.reverse

/-- The loop of `CommandChain::execute_sequential` (command_chain.rs lines
195-262), with the accumulated `results` and `executed_commands` vectors made
explicit. Mirrors the source exactly: on `Ok(result)` the command is pushed to
`executed_commands` *before* `result.success` is tested; on a failed result the
chain stops, optionally rolls back `executed_commands` (which therefore includes
the failed command) and returns the partial `ChainResult`; on `Err` the error is
propagated after optionally rolling back `executed_commands` (which does not
include the erroring command). The second component is the rollback trace. -/
def seq_loop (rollback_on_error : Bool) :
    List Command → List CommandResult → List Command →
    Except CommandError ChainResult × List String
  | [], results, _ =>
    (.ok { results := results, success := true, error := none }, [])
  | c :: rest, results, executed =>
    match c.executeResult with
    | .ok r =>
      if r.success then
        seq_loop rollback_on_error rest (results ++ [r]) (executed ++ [c])
      else
        (.ok { results := results ++ [r], success := false, error := r.error },
         if rollback_on_error then CommandChain.rollback_commands (executed ++ [c]) else [])
    | .error e =>
      (.error e,
       if rollback_on_error then CommandChain.rollback_commands executed else [])

/-- `CommandChain::execute_sequential` (command_chain.rs lines 191-269). -/
def CommandChain.execute_sequential (ch : CommandChain) :
    Except CommandError ChainResult × List String :=
  seq_loop ch.rollback_on_error ch.commands [] []

/-- The mutable state of the result-processing loop in
`CommandChain::execute_parallel` (command_chain.rs lines 344-367). -/
structure ParState where
  results : List CommandResult
  has_errors : Bool
  first_error : Option String
  executed : List Command

/-- One iteration of the result-processing loop in
`CommandChain::execute_parallel` (command_chain.rs lines 349-367).
`future::join_all` yields the (command, result) pairs in input order, so the
loop visits the commands in input order regardless of completion order. -/
def par_step (st : ParState) (c : Command) : ParState :=
  match c.executeResult with
  | .ok r =>
    { results := st.results ++ [r]
      has_errors := st.has_errors || !r.success
      first_error := if !r.success && !st.has_errors then r.error else st.first_error
      executed := st.executed ++ [c] }
  | .error e =>
    { st with
      has_errors := true
      first_error := if !st.has_errors then some e.toString else st.first_error }

/-- `CommandChain::execute_parallel` (command_chain.rs lines 272-379). -/
def CommandChain.execute_parallel (ch : CommandChain) :
    Except CommandError ChainResult × List String :=
  if ch.commands.isEmpty then
    (.ok { results := [], success := true, error := none }, [])
  else
    let st := ch.commands.foldl par_step { results := [], has_errors := false, first_error := none, executed := [] }
    (.ok { results := st.results, success := !st.has_errors, error := st.first_error },
     if st.has_errors && ch.rollback_on_error then CommandChain.rollback_commands st.executed else [])

/-- The mode-resolution step at the top of `CommandChain::execute`
(command_chain.rs lines 127-142): `Auto` resolves to `Sequential` when any
member command declares `Sequential`, else to `Parallel`. -/
def CommandChain.effective_mode (ch : CommandChain) : ExecutionMode :=
  match ch.mode with
  | .Sequential => .Sequential
  | .Parallel => .Parallel
  | .Auto =>
    if ch.commands.any (fun c => c.execution_mode == ExecutionMode.Sequential) then
      .Sequential
    else
      .Parallel

/-- `CommandChain::execute` (command_chain.rs lines 125-188): resolve the
effective mode, then dispatch. -/
def CommandChain.execute (ch : CommandChain) :
    Except CommandError ChainResult × List String :=
  match ch.effective_mode with
  | .Sequential => ch.execute_sequential
  | .Parallel => ch.execute_parallel

/-! ## ShellCommand (src/src/command/shell_command.rs) -/

/-- The left-brace character, written via its code point so that template
examples stay readable. -/
def lbrace : Char := Char.ofNat 123

/-- The right-brace character. -/
def rbrace : Char := Char.ofNat 125

/-- The backquote character (significant to the shlex double-quote escapes). -/
def backquote : Char := Char.ofNat 96

/-- `ShellCommand` (shell_command.rs lines 28-56). `env_vars` (a `HashMap`) is
embedded as an association list with insert-replaces-key semantics. -/
structure ShellCommand where
  name : String
  command : String
  working_dir : Option String
  env_vars : List (String × String)
  mode : ExecutionMode
  supports_rollback : Bool
  rollback_command : Option String
  timeout_seconds : Option Nat
  variables_file : Option String
deriving DecidableEq, Repr

/-- `HashMap::insert`: replace the value when the key is present, else add. -/
def assoc_insert : List (String × String) → String → String → List (String × String)
  | [], k, v => [(k, v)]
  | (k', v') :: rest, k, v =>
    if k' = k then (k, v) :: rest else (k', v') :: assoc_insert rest k v

/-- `ShellCommand::new` (shell_command.rs lines 60-72). -/
def ShellCommand.new (name command : String) : ShellCommand :=
  { name := name, command := command, working_dir := none, env_vars := [],
    mode := ExecutionMode.Sequential, supports_rollback := false,
    rollback_command := none, timeout_seconds := none, variables_file := none }

/-- `ShellCommand::with_working_dir`. -/
def ShellCommand.with_working_dir (c : ShellCommand) (dir : String) : ShellCommand :=
  { c with working_dir := some dir }

/-- `ShellCommand::with_env_var`. -/
def ShellCommand.with_env_var (c : ShellCommand) (key value : String) : ShellCommand :=
  { c with env_vars := assoc_insert c.env_vars key value }

/-- `ShellCommand::with_execution_mode`. -/
def ShellCommand.with_execution_mode (c : ShellCommand) (mode : ExecutionMode) : ShellCommand :=
  { c with mode := mode }

/-- `ShellCommand::with_rollback` (shell_command.rs lines 93-97): sets both the
`supports_rollback` flag and the rollback template. -/
def ShellCommand.with_rollback (c : ShellCommand) (rollback_command : String) : ShellCommand :=
  { c with supports_rollback := true, rollback_command := some rollback_command }

/-- `ShellCommand::with_timeout`. -/
def ShellCommand.with_timeout (c : ShellCommand) (seconds : Nat) : ShellCommand :=
  { c with timeout_seconds := some seconds }

/-- `ShellCommand::with_variables_file`. -/
def ShellCommand.with_variables_file (c : ShellCommand) (file_path : String) : ShellCommand :=
  { c with variables_file := some file_path }

/-! ### The placeholder scanner

The four `lazy_static` regexes in shell_command.rs lines 20-25 all match a
brace group whose content is free of braces and non-empty; they differ only in
what the content must start with (FILE: a hash sign, ENV: a dollar sign,
INTERACTIVE: neither).  `captures_iter` enumerates the non-overlapping matches
left to right.  `scan_content` reads a match's content after an opening brace:
it succeeds at the first closing brace, and restarts the scan when another
opening brace intervenes (the content classes `[^{}]+` cannot cross a brace,
matching the regex engine's behaviour). -/

inductive ScanStep
  | found (content : List Char) (rest : List Char)
  | reopened (rest : List Char)
  | ended
deriving DecidableEq

/-- Read the chars after an opening brace up to the matching closing brace. -/
def scan_content : List Char → ScanStep
  | [] => .ended
  | c :: rest =>
    if c == rbrace then .found [] rest
    else if c == lbrace then .reopened (c :: rest)
    else
      match scan_content rest with
      | .found content r => .found (c :: content) r
      | s => s

/-- All brace-group matches (their contents, brace-free and non-empty) in a
character list, left to right, non-overlapping — the shared shape of the four
regex patterns.  `fuel` bounds the recursion; `captures` supplies enough. -/
def scan_captures : Nat → List Char → List (List Char)
  | 0, _ => []
  | _ + 1, [] => []
  | fuel + 1, c :: rest =>
    if c == lbrace then
      match scan_content rest with
      | .found content r =>
        if content.isEmpty then scan_captures fuel rest
        else content :: scan_captures fuel r
      | .reopened r => scan_captures fuel r
      | .ended => []
    else
      scan_captures fuel rest

/-- The brace-group matches of a string (contents only). -/
def captures (s : String) : List (List Char) :=
  scan_captures s.data.length s.data

/-- FILE_VAR_PATTERN: content is a hash sign followed by a non-empty name. -/
def isFileCap : List Char → Bool
  | c :: rest => c == '#' && !rest.isEmpty
  | [] => false

/-- ENV_VAR_PATTERN: content is a dollar sign followed by a non-empty name. -/
def isEnvCap : List Char → Bool
  | c :: rest => c == '$' && !rest.isEmpty
  | [] => false

/-- INTERACTIVE_VAR_PATTERN: content starts with neither a hash nor a dollar
sign. -/
def isInteractiveCap : List Char → Bool
  | c :: _ => c != '#' && c != '$'
  | [] => false

/-- The full matched text `cap[0]` of a capture: the content re-wrapped in
braces. -/
def capFull (content : List Char) : String :=
  String.mk (lbrace :: content ++ [rbrace])

/-- `str::replace`: replace every non-overlapping occurrence of `pat`, left to
right.  Structural-fuel implementation; `strReplace` supplies enough fuel (each
step consumes at least one character when `pat` is non-empty, and every pattern
used by the variable passes starts with a brace). -/
def replace_go : Nat → List Char → List Char → List Char → List Char
  | 0, s, _, _ => s
  | _ + 1, [], _, _ => []
  | fuel + 1, c :: rest, pat, rep =>
    if pat ≠ [] ∧ pat.isPrefixOf (c :: rest) then
      rep ++ replace_go fuel ((c :: rest).drop pat.length) pat rep
    else
      c :: replace_go fuel rest pat rep

/-- `str::replace` on strings. -/
def strReplace (s pat rep : String) : String :=
  String.mk (replace_go s.data.length s.data pat.data rep.data)

/-! ### Variable resolution (shell_command.rs lines 111-208)

`prompt` is the injectable interactive value source (the code's
`prompt_for_variable` writes to stdout and reads one line from stdin; its I/O
error path is an environment failure no claim touches, so the source is modelled
as total).  `env` is `std::env::var`.  A pass computes the captures of the
string it starts from — `captures_iter` over a snapshot — and then folds the
replacements over the evolving string, exactly as the three loops do. -/

/-- The file pass (lines 170-186): iterates the FILE captures of the pass's
input string; each is looked up in the loaded file variables when a variables
file was declared, falling back to the interactive prompt. -/
def file_pass (file_vars : Option (String → Option String)) (prompt : String → String)
    (s : String) : String :=
  ((captures s).filter isFileCap).foldl
    (fun acc content =>
      let var_name := String.mk content.tail
      let value :=
        match file_vars with
        | some lookup =>
          match lookup var_name with
          | some v => v
          | none => prompt var_name
        | none => prompt var_name
      strReplace acc (capFull content) value)
    s

/-- The environment pass (lines 188-198): iterates the ENV captures of the
string produced by the file pass. -/
def env_pass (env : String → Option String) (prompt : String → String)
    (s : String) : String :=
  ((captures s).filter isEnvCap).foldl
    (fun acc content =>
      let var_name := String.mk content.tail
      let value :=
        match env var_name with
        | some v => v
        | none => prompt var_name
      strReplace acc (capFull content) value)
    s

/-- The interactive pass (lines 200-205): iterates the INTERACTIVE captures of
the string produced by the environment pass; always prompts. -/
def interactive_pass (prompt : String → String) (s : String) : String :=
  ((captures s).filter isInteractiveCap).foldl
    (fun acc content =>
      strReplace acc (capFull content) (prompt (String.mk content)))
    s

/-! ### The variables file (shell_command.rs lines 129-158) -/

/-- A JSON value as `load_variables_from_file` distinguishes them: a top-level
object whose entries are either strings (used verbatim) or any other value
(carried as its `to_string()` rendering), or a non-object value (which yields no
variables). -/
inductive JsonLeaf
  | str (s : String)
  | other (rendered : String)
deriving DecidableEq

inductive Json
  | obj (entries : List (String × JsonLeaf))
  | nonObject
deriving DecidableEq

/-- The outcome of `File::open` + `read_to_string` for a path: the contents, or
the rendered I/O error of whichever step failed. -/
inductive FsRead
  | ok (contents : String)
  | openFailed (e : String)
  | readFailed (e : String)

/-- `Value::to_string()` for an entry, per lines 147-155. -/
def JsonLeaf.asVar : JsonLeaf → String
  | .str s => s
  | .other rendered => rendered

/-- `ShellCommand::load_variables_from_file` (lines 130-158). `fs` is the file
system, `parse` is `serde_json::from_str` (an external crate, modelled as an
oracle returning the parsed value or the rendered parse error).  Every failure
is mapped to `CommandError::ExecutionError` with the formatted message. -/
def load_variables_from_file (fs : String → FsRead) (parse : String → Except String Json)
    (file_path : String) : Except CommandError (List (String × String)) :=
  match fs file_path with
  | .openFailed e => .error (.ExecutionError ("Не удалось открыть файл с переменными: " ++ e))
  | .readFailed e => .error (.ExecutionError ("Не удалось прочитать файл с переменными: " ++ e))
  | .ok contents =>
    match parse contents with
    | .error e => .error (.ExecutionError ("Не удалось разобрать JSON: " ++ e))
    | .ok (.obj entries) => .ok (entries.map (fun p => (p.1, p.2.asVar)))
    | .ok .nonObject => .ok []

/-- `HashMap::get` over the loaded variables. -/
def varsLookup (entries : List (String × String)) (name : String) : Option String :=
  (entries.find? (fun p => p.1 == name)).map (fun p => p.2)

/-- `ShellCommand::process_variables` (lines 161-208): load the file variables
when a variables file is declared (propagating its error), then run the file
pass, the environment pass and the interactive pass in that order. -/
def ShellCommand.process_variables (c : ShellCommand) (fs : String → FsRead)
    (parse : String → Except String Json) (env : String → Option String)
    (prompt : String → String) (cmd : String) : Except CommandError String := do
  let file_vars : Option (String → Option String) ←
    match c.variables_file with
    | some file_path => do
      let entries ← load_variables_from_file fs parse file_path
      pure (some (varsLookup entries))
    | none => pure none
  pure (interactive_pass prompt (env_pass env prompt (file_pass file_vars prompt cmd)))

/-! ### shlex tokenization and the execute pipeline (shell_command.rs lines 211-286)

`shlex::split` is an external crate; it is embedded below following the crate's
algorithm: whitespace-separated words; single quotes quote literally (with the
crate's backslash handling); double quotes quote with POSIX-style backslash
escapes for the dollar sign, the backquote, the double quote, the backslash and
the line break; a bare backslash escapes the next character; a hash sign at a
word boundary starts a comment running to the end of the line.  `split` returns
`none` when the input ends inside a quoted section or right after a backslash
(the crate's `had_error`). -/

/-- Parse the remainder of a single-quoted section; `none` on end of input. -/
def parse_single_quoted : List Char → Option (List Char × List Char)
  | [] => none
  | c :: rest =>
    if c == '\'' then some ([], rest)
    else if c == '\\' then
      match rest with
      | [] => none
      | c2 :: rest2 =>
        let kept := if c2 == '\\' || c2 == '\'' then [c2] else ['\\', c2]
        match parse_single_quoted rest2 with
        | some (acc, r) => some (kept ++ acc, r)
        | none => none
    else
      match parse_single_quoted rest with
      | some (acc, r) => some (c :: acc, r)
      | none => none

/-- Parse the remainder of a double-quoted section; `none` on end of input. -/
def parse_double_quoted : List Char → Option (List Char × List Char)
  | [] => none
  | c :: rest =>
    if c == '"' then some ([], rest)
    else if c == '\\' then
      match rest with
      | [] => none
      | c2 :: rest2 =>
        let kept :=
          if c2 == '$' || c2 == backquote || c2 == '"' || c2 == '\\' then [c2]
          else if c2 == '\n' then []
          else ['\\', c2]
        match parse_double_quoted rest2 with
        | some (acc, r) => some (kept ++ acc, r)
        | none => none
    else
      match parse_double_quoted rest with
      | some (acc, r) => some (c :: acc, r)
      | none => none

/-- `Shlex::parse_word`, starting at the word's first character: accumulate
until an unquoted whitespace character (consumed) or the end of input; `none`
on a quoting/escape error. -/
def parse_word_go : Nat → List Char → Option (List Char × List Char)
  | 0, _ => none
  | _ + 1, [] => some ([], [])
  | fuel + 1, c :: rest =>
    if c == '"' then
      match parse_double_quoted rest with
      | none => none
      | some (content, r) =>
        match parse_word_go fuel r with
        | some (w, r2) => some (content ++ w, r2)
        | none => none
    else if c == '\'' then
      match parse_single_quoted rest with
      | none => none
      | some (content, r) =>
        match parse_word_go fuel r with
        | some (w, r2) => some (content ++ w, r2)
        | none => none
    else if c == '\\' then
      match rest with
      | [] => none
      | c2 :: rest2 =>
        match parse_word_go fuel rest2 with
        | some (w, r2) => some ((if c2 == '\n' then [] else [c2]) ++ w, r2)
        | none => none
    else if c == ' ' || c == '\t' || c == '\n' then some ([], rest)
    else
      match parse_word_go fuel rest with
      | some (w, r2) => some (c :: w, r2)
      | none => none

/-- Drop a comment: everything up to and including the next line break. -/
def drop_comment (l : List Char) : List Char :=
  match l.dropWhile (fun c => c != '\n') with
  | [] => []
  | _ :: t => t

/-- The outcome of `Shlex::next`: end of input, a tokenization error, or one
word plus the remaining input. -/
inductive NextTok
  | eofTok
  | errTok
  | tok (w : List Char) (rest : List Char)

/-- `Shlex::next`: skip whitespace and comments, then parse one word. -/
def shlex_next : Nat → List Char → NextTok
  | 0, _ => .errTok
  | _ + 1, [] => .eofTok
  | fuel + 1, c :: rest =>
    if c == ' ' || c == '\t' || c == '\n' then shlex_next fuel rest
    else if c == '#' then shlex_next fuel (drop_comment rest)
    else
      match parse_word_go (rest.length + 2) (c :: rest) with
      | none => .errTok
      | some (w, r) => .tok w r

/-- Collect all words; `none` as soon as tokenization errs (`had_error`). -/
def shlex_collect : Nat → List Char → Option (List (List Char))
  | 0, _ => none
  | fuel + 1, s =>
    match shlex_next (s.length + 1) s with
    | .eofTok => some []
    | .errTok => none
    | .tok w r =>
      match shlex_collect fuel r with
      | some ws => some (w :: ws)
      | none => none

/-- `shlex::split`. -/
def shlex_split (s : String) : Option (List String) :=
  match shlex_collect (s.data.length + 1) s.data with
  | some ws => some (ws.map (fun w => String.mk w))
  | none => none

/-- The `std::process::Output` data the code reads after the process finished:
the exit status, the exit code and the two captured streams decoded as lossy
UTF-8. -/
structure RawOutput where
  status_success : Bool
  code : Option Int
  stdout : String
  stderr : String

/-- The tokio timeout race (shell_command.rs lines 255-267).  `proc` is the
outcome of `cmd.output()`: the process output or a rendered I/O error (the
`res?` conversion turns the latter into `CommandError::IoError` via `#[from]`).
When a timeout is declared, the environment decides the race through
`timer_wins`; when none is declared the future is awaited directly and
`timer_wins` is irrelevant. -/
def raced (timeout_seconds : Option Nat) (timer_wins : Bool)
    (proc : Except String RawOutput) : Except CommandError RawOutput :=
  let awaited : Except CommandError RawOutput :=
    match proc with
    | .ok out => .ok out
    | .error e => .error (.IoError e)
  match timeout_seconds with
  | some _ => if timer_wins then .error .TimeoutError else awaited
  | none => awaited

/-- `ShellCommand::execute_with_timeout` (shell_command.rs lines 211-286):
resolve the variables, tokenize with shlex (rejecting untokenizable and empty
commands with `ExecutionError` before anything is spawned), then race the
spawned platform-shell invocation against the declared timeout and classify the
exit status.  The spawn itself hands `sh -c <processed>` to the platform shell;
its outcome is the `timer_wins`/`proc` environment input. -/
def ShellCommand.execute_with_timeout (c : ShellCommand) (fs : String → FsRead)
    (parse : String → Except String Json) (env : String → Option String)
    (prompt : String → String) (timer_wins : Bool) (proc : Except String RawOutput) :
    Except CommandError CommandResult :=
  match c.process_variables fs parse env prompt c.command with
  | .error e => .error e
  | .ok processed =>
    match shlex_split processed with
    | none => .error (.ExecutionError ("Не удалось разобрать команду: " ++ processed))
    | some args =>
      if args.isEmpty then .error (.ExecutionError "Пустая команда")
      else
        match raced c.timeout_seconds timer_wins proc with
        | .error e => .error e
        | .ok output =>
          let result := CommandResult.new c.name
          if output.status_success then
            .ok (result.markSuccess output.stdout)
          else
            let error_msg :=
              if output.stderr == "" then
                "Команда завершилась с ошибкой: код " ++ toString (output.code.getD (-1))
              else output.stderr
            .ok (result.markFailure error_msg output.code)

/-- `ShellCommand::execute` (shell_command.rs lines 291-293). -/
def ShellCommand.execute (c : ShellCommand) (fs : String → FsRead)
    (parse : String → Except String Json) (env : String → Option String)
    (prompt : String → String) (timer_wins : Bool) (proc : Except String RawOutput) :
    Except CommandError CommandResult :=
  c.execute_with_timeout fs parse env prompt timer_wins proc

/-- The command-construction part of `ShellCommand::rollback` (shell_command.rs
lines 295-323): fail with `RollbackError` when the `supports_rollback` flag is
unset or no rollback template is stored; otherwise build the fresh rollback
`ShellCommand` (suffixed name, rollback template, copied working directory,
environment variables, execution mode and variables file; no rollback of its
own and no timeout). -/
def ShellCommand.rollback_target (c : ShellCommand) : Except CommandError ShellCommand :=
  if !c.supports_rollback then
    .error (.RollbackError "Команда не поддерживает откат")
  else
    match c.rollback_command with
    | none => .error (.RollbackError "Команда отката не задана")
    | some rollback_cmd =>
      .ok { ShellCommand.new (c.name ++ "_rollback") rollback_cmd with
            working_dir := c.working_dir
            env_vars := c.env_vars
            mode := c.mode
            variables_file := c.variables_file }

/-- `ShellCommand::rollback` (shell_command.rs lines 295-326): build the
rollback command and execute it. -/
def ShellCommand.rollback (c : ShellCommand) (fs : String → FsRead)
    (parse : String → Except String Json) (env : String → Option String)
    (prompt : String → String) (timer_wins : Bool) (proc : Except String RawOutput) :
    Except CommandError CommandResult := do
  let target ← c.rollback_target
  target.execute fs parse env prompt timer_wins proc

/-! ## CommandBuilder (src/src/builder/command_builder.rs) -/

/-- `CommandBuilder` state. -/
structure CommandBuilder where
  name : String
  command : String
  working_dir : Option String
  env_vars : List (String × String)
  mode : ExecutionMode
  rollback_command : Option String
  timeout_seconds : Option Nat
  variables_file : Option String

/-- `CommandBuilder::new`. -/
def CommandBuilder.new (name command : String) : CommandBuilder :=
  { name := name, command := command, working_dir := none, env_vars := [],
    mode := ExecutionMode.Sequential, rollback_command := none,
    timeout_seconds := none, variables_file := none }

/-- `CommandBuilder::build` (command_builder.rs lines 90-115): apply the stored
options to `ShellCommand::new` through the `with_*` builders. -/
def CommandBuilder.build (b : CommandBuilder) : ShellCommand :=
  let command := (ShellCommand.new b.name b.command).with_execution_mode b.mode
  let command := match b.working_dir with
    | some dir => command.with_working_dir dir
    | none => command
  let command := b.env_vars.foldl (fun c p => c.with_env_var p.1 p.2) command
  let command := match b.rollback_command with
    | some rollback_cmd => command.with_rollback rollback_cmd
    | none => command
  let command := match b.timeout_seconds with
    | some timeout => command.with_timeout timeout
    | none => command
  match b.variables_file with
  | some vars_file => command.with_variables_file vars_file
  | none => command

/-! ## CompositeCommand (src/src/command/composite_command.rs) -/

/-- `CompositeCommand` (composite_command.rs lines 12-22): a named ordered group
of trait-object children plus its own execution mode. -/
structure CompositeCommand where
  name : String
  commands : List Command
  mode : ExecutionMode

/-- The loop of `CompositeCommand::execute_sequential` (composite_command.rs
lines 47-83): run children in order, stop at the first failed or errored child
and fold that into an `Ok` failure result naming the child; on full success
return the concatenated labelled outputs. -/
def composite_seq_loop (cname : String) : List Command → String → Except CommandError CommandResult
  | [], all_output => .ok ((CommandResult.new cname).markSuccess all_output)
  | c :: rest, all_output =>
    match c.executeResult with
    | .ok r =>
      if !r.success then
        .ok ((CommandResult.new cname).markFailure
          ("Подкоманда " ++ c.name ++ " завершилась с ошибкой: " ++
            r.error.getD "Неизвестная ошибка")
          r.exit_code)
      else
        composite_seq_loop cname rest (all_output ++ c.name ++ ":\n" ++ r.output ++ "\n")
    | .error e =>
      .ok ((CommandResult.new cname).markFailure
        ("Ошибка при выполнении подкоманды " ++ c.name ++ ": " ++ e.toString)
        none)

/-- `CompositeCommand::execute_sequential`. -/
def CompositeCommand.execute_sequential (c : CompositeCommand) : Except CommandError CommandResult :=
  composite_seq_loop c.name c.commands ""

/-- The mutable state of the result loop in `CompositeCommand::execute_parallel`
(composite_command.rs lines 97-132). -/
structure CompParState where
  all_output : String
  has_errors : Bool
  first_error : Option String
  first_exit_code : Option Int

/-- One iteration of the result loop in `CompositeCommand::execute_parallel`
(composite_command.rs lines 102-132); `join_all` yields results in input
order. -/
def composite_par_step (st : CompParState) (c : Command) : CompParState :=
  match c.executeResult with
  | .ok r =>
    let st1 :=
      if !r.success && !st.has_errors then
        { st with has_errors := true, first_error := r.error, first_exit_code := r.exit_code }
      else st
    { st1 with
      all_output := st1.all_output ++ c.name ++ ":\n" ++
        (if r.success then r.output else r.error.getD "Неизвестная ошибка") ++ "\n" }
  | .error e =>
    let st1 :=
      if !st.has_errors then { st with has_errors := true, first_error := some e.toString }
      else st
    { st1 with all_output := st1.all_output ++ c.name ++ ": Ошибка: " ++ e.toString ++ "\n" }

/-- `CompositeCommand::execute_parallel` (composite_command.rs lines 86-145). -/
def CompositeCommand.execute_parallel (c : CompositeCommand) : Except CommandError CommandResult :=
  let st := c.commands.foldl composite_par_step
    { all_output := "", has_errors := false, first_error := none, first_exit_code := none }
  if st.has_errors then
    .ok ((CommandResult.new c.name).markFailure
      ("Некоторые подкоманды завершились с ошибкой: " ++ st.first_error.getD "Неизвестная ошибка")
      st.first_exit_code)
  else
    .ok ((CommandResult.new c.name).markSuccess st.all_output)

/-- `CompositeCommand::execute` (composite_command.rs lines 201-206). -/
def CompositeCommand.execute (c : CompositeCommand) : Except CommandError CommandResult :=
  match c.mode with
  | .Sequential => c.execute_sequential
  | .Parallel => c.execute_parallel

/-- The loop of `CompositeCommand::rollback_commands` (composite_command.rs
lines 153-183) over the already-reversed child list, accumulating the labelled
output and the trace of children whose `rollback()` was invoked. -/
def composite_rollback_loop : List Command → String → List String → String × List String
  | [], all_output, trace => (all_output, trace)
  | c :: rest, all_output, trace =>
    if c.supports_rollback then
      let seg :=
        match c.rollbackResult with
        | .ok r =>
          "Откат " ++ c.name ++ ":\n" ++
            (if r.success then r.output else r.error.getD "Неизвестная ошибка") ++ "\n"
        | .error e => "Ошибка отката " ++ c.name ++ ": " ++ e.toString ++ "\n"
      composite_rollback_loop rest (all_output ++ seg) (trace ++ [c.name])
    else
      composite_rollback_loop rest
        (all_output ++ "Команда " ++ c.name ++ " не поддерживает откат\n") trace

/-- `CompositeCommand::rollback_commands` (composite_command.rs lines 148-186):
iterate the children in reverse declaration order, invoke `rollback()` on those
that support it, and always return a success result carrying the combined
output.  The second component is the rollback-invocation trace. -/
def CompositeCommand.rollback_commands (c : CompositeCommand) :
    Except CommandError CommandResult × List String :=
  let st := composite_rollback_loop c.commands.reverse "" []
  (.ok ((CommandResult.new (c.name ++ "_rollback")).markSuccess st.1), st.2)

/-- `CompositeCommand::rollback` (composite_command.rs lines 208-210). -/
def CompositeCommand.rollback (c : CompositeCommand) :
    Except CommandError CommandResult × List String :=
  c.rollback_commands

/-- `CompositeCommand::supports_rollback` (composite_command.rs lines 220-222). -/
def CompositeCommand.supports_rollback (c : CompositeCommand) : Bool :=
  c.commands.any (fun cmd => cmd.supports_rollback)

/-! ## Concrete fixtures used by witnesses and counterexamples -/

/-- A successful result for command c1. -/
def rOk1 : CommandResult := (CommandResult.new "c1").markSuccess "ok1"

/-- A failed result for command c2. -/
def rFail2 : CommandResult := (CommandResult.new "c2").markFailure "boom" (some 1)

/-- A failed result for command c3. -/
def rFail3 : CommandResult := (CommandResult.new "c3").markFailure "bang" (some 2)

/-- A successful rollback result. -/
def rRb : CommandResult := (CommandResult.new "rb").markSuccess ""

/-- A succeeding, rollback-supporting sequential command. -/
def cmd1 : Command := ⟨"c1", .ok rOk1, .ok rRb, true, .Sequential⟩

/-- A failing (business failure), rollback-supporting sequential command. -/
def cmd2 : Command := ⟨"c2", .ok rFail2, .ok rRb, true, .Sequential⟩

/-- A failing parallel command. -/
def cmd3 : Command := ⟨"c3", .ok rFail3, .ok rRb, true, .Parallel⟩

/-- A command without rollback support. -/
def cmdNoRb : Command := ⟨"c0", .ok rOk1, .error (.RollbackError "нет"), false, .Parallel⟩

/-- A command whose `execute()` returns the `Err` channel. -/
def cmdErr : Command := ⟨"ce", .error (.ExecutionError "взрыв"), .error (.RollbackError "нет"), false, .Sequential⟩

/-- The `Ok` payload of a command's execute outcome (used to instantiate the
`okOf` abstraction of the theorems at concrete commands). -/
def okOfPayload : Command → CommandResult := fun c =>
  match c.executeResult with
  | .ok r => r
  | .error _ => CommandResult.new c.name

/-- A file system on which every open fails. -/
def fsDenied : String → FsRead := fun _ => .openFailed "permission denied"

/-- A file system on which every read succeeds. -/
def fsOk : String → FsRead := fun _ => .ok "file contents"

/-- A parse oracle that is never consulted successfully. -/
def parseAny : String → Except String Json := fun _ => .error "unused"

/-- A parse oracle producing the object mapping A to the literal text of an
environment placeholder for X. -/
def parseC3 : String → Except String Json := fun _ => .ok (.obj [("A", .str "\x7b$X\x7d")])

/-- An environment defining only X. -/
def envC3 : String → Option String := fun n => if n == "X" then some "v" else none

/-- An interactive source answering every prompt with a marked string. -/
def promptC3 : String → String := fun n => "?" ++ n ++ "?"

/-- A command with a declared variables file whose template holds one file
placeholder. -/
def cmdC3 : ShellCommand :=
  (ShellCommand.new "c3cmd" "echo \x7b#A\x7d").with_variables_file "vars.json"

/-- Scenario C of the spec: a 1-second timeout on a 5-second sleep. -/
def cmdSleep : ShellCommand := (ShellCommand.new "sleeper" "sleep 5").with_timeout 1

/-- A command whose template carries an unbalanced double quote. -/
def cmdQuote : ShellCommand := ShellCommand.new "q" "echo \"unbalanced"

/-- A command with a declared rollback template. -/
def cmdRb : ShellCommand := (ShellCommand.new "dep" "mkdir x").with_rollback "rmdir x"

/-- A process output representing a clean exit. -/
def outOk : RawOutput := { status_success := true, code := some 0, stdout := "", stderr := "" }

/-- A sequential composite whose second child errs on execution. -/
def compW : CompositeCommand := ⟨"g", [cmd1, cmdErr], ExecutionMode.Sequential⟩

/-- A composite mixing rollback-supporting and unsupporting children. -/
def compRbW : CompositeCommand := ⟨"grp", [cmdNoRb, cmd1, cmd2], ExecutionMode.Parallel⟩

/-- A parallel composite whose only child errs on execution. -/
def compPar : CompositeCommand := ⟨"gp", [cmdErr], ExecutionMode.Parallel⟩

/-! ## Helper lemmas -/

/-- The rollback loop invokes `rollback()` exactly on the supporting commands,
in list order. -/
theorem rollback_loop_eq (l : List Command) :
    rollback_loop l = (l.filter (fun c => c.supports_rollback)).map (fun c => c.name) := by
  induction l with
  | nil => rfl
  | cons c rest ih =>
    by_cases h : c.supports_rollback <;> simp [rollback_loop, h, ih, List.filter_cons]

/-- `rollback_commands` on a snoc list: the last-executed command is considered
first. -/
theorem rollback_commands_concat (l : List Command) (c : Command) :
    CommandChain.rollback_commands (l ++ [c]) =
      (if c.supports_rollback then [c.name] else []) ++ CommandChain.rollback_commands l := by
  simp [CommandChain.rollback_commands, List.reverse_append, rollback_loop]

/-- Running the sequential loop across a prefix of commands that all return
successful results appends their results and marks them executed. -/
theorem seq_loop_append (rbk : Bool) (okOf : Command → CommandResult) :
    ∀ (pre rest : List Command) (results : List CommandResult) (executed : List Command),
      (∀ c ∈ pre, c.executeResult = .ok (okOf c) ∧ (okOf c).success = true) →
      seq_loop rbk (pre ++ rest) results executed =
        seq_loop rbk rest (results ++ pre.map okOf) (executed ++ pre)
  | [], rest, results, executed, _ => by simp
  | c :: pre, rest, results, executed, h => by
    have hc := h c (by simp)
    have hpre : ∀ x ∈ pre, x.executeResult = .ok (okOf x) ∧ (okOf x).success = true :=
      fun x hx => h x (by simp [hx])
    show seq_loop rbk (c :: (pre ++ rest)) results executed = _
    rw [seq_loop, hc.1]
    simp only [hc.2, if_true]
    rw [seq_loop_append rbk okOf pre rest (results ++ [okOf c]) (executed ++ [c]) hpre]
    simp

/-- Characterization of the parallel result-processing fold when every command
returned through the `Ok` channel: results and executed commands accumulate in
input order, and the first error is the error of the first failing command. -/
theorem par_fold (okOf : Command → CommandResult) :
    ∀ (cmds : List Command) (st : ParState),
      (∀ c ∈ cmds, c.executeResult = .ok (okOf c)) →
      cmds.foldl par_step st =
        { results := st.results ++ cmds.map okOf
          has_errors := st.has_errors || cmds.any (fun c => !(okOf c).success)
          first_error :=
            if st.has_errors then st.first_error
            else
              match cmds.find? (fun c => !(okOf c).success) with
              | some c => (okOf c).error
              | none => st.first_error
          executed := st.executed ++ cmds }
  | [], st, _ => by simp
  | c :: rest, st, h => by
    have hc : c.executeResult = .ok (okOf c) := h c (by simp)
    have hrest : ∀ x ∈ rest, x.executeResult = .ok (okOf x) := fun x hx => h x (by simp [hx])
    rw [List.foldl_cons, par_fold okOf rest (par_step st c) hrest]
    simp only [par_step, hc]
    cases hs : st.has_errors <;> cases hp : (okOf c).success <;>
      simp [hs, hp, List.find?_cons, List.any_cons]

/-! ## Claims -/

/-- C1 (amended): in a Sequential, rollback-enabled chain whose commands 1..k-1
return successful results and whose command k returns a failed result, the
returned ChainResult holds exactly the results of commands 1..k in input order
with the failing command's error; the rollback pass then walks commands k..1 —
commands 1..k in strict reverse order, *starting with the failed command k
itself* — invoking `rollback()` on each of them that supports rollback.  (The
claim's assertion that command k is never rolled back fails on the code:
`execute_sequential` pushes the command to `executed_commands` before testing
`result.success`, so the failed command is the first rollback candidate.) -/
theorem seq_failure_results_and_reverse_rollback
    (nm : String) (pre : List Command) (ck : Command) (post : List Command)
    (okOf : Command → CommandResult) (rk : CommandResult)
    (hpre : ∀ c ∈ pre, c.executeResult = .ok (okOf c) ∧ (okOf c).success = true)
    (hk : ck.executeResult = .ok rk) (hrk : rk.success = false) :
    CommandChain.execute ⟨nm, pre ++ ck :: post, ChainExecutionMode.Sequential, true⟩ =
      (.ok { results := pre.map okOf ++ [rk], success := false, error := rk.error },
       (if ck.supports_rollback then [ck.name] else []) ++
         (pre.reverse.filter (fun c => c.supports_rollback)).map (fun c => c.name)) := by
  unfold CommandChain.execute
  rw [show CommandChain.effective_mode ⟨nm, pre ++ ck :: post, ChainExecutionMode.Sequential, true⟩ =
    ExecutionMode.Sequential from rfl]
  show seq_loop true (pre ++ ck :: post) [] [] = _
  rw [seq_loop_append true okOf pre (ck :: post) [] [] hpre]
  rw [seq_loop, hk]
  simp only [hrk, Bool.false_eq_true, if_false, List.nil_append]
  rw [if_pos trivial, rollback_commands_concat, CommandChain.rollback_commands, rollback_loop_eq]

/-- C1 counterexample: a two-command Sequential, rollback-enabled chain in which
command 2 fails and supports rollback.  The claim as stated predicts a rollback
trace of ["c1"] with command 2 never rolled back; the code rolls back command 2
first, producing the trace ["c2", "c1"]. -/
theorem seq_failed_command_is_rolled_back :
    (CommandChain.execute ⟨"ch", [cmd1, cmd2], ChainExecutionMode.Sequential, true⟩).2 =
      ["c2", "c1"] ∧
    "c2" ∈ (CommandChain.execute ⟨"ch", [cmd1, cmd2], ChainExecutionMode.Sequential, true⟩).2 := by
  constructor <;> decide

/-- C1 witness: the amended theorem applied to the concrete two-command chain. -/
theorem seq_failure_rollback_witness :
    CommandChain.execute ⟨"ch2", [cmd1, cmd2], ChainExecutionMode.Sequential, true⟩ =
      (.ok { results := [rOk1, rFail2], success := false, error := some "boom" },
       ["c2", "c1"]) := by
  have h := seq_failure_results_and_reverse_rollback "ch2" [cmd1] cmd2 [] okOfPayload rFail2
    (by intro c hc; simp only [List.mem_singleton] at hc; subst hc; exact ⟨rfl, rfl⟩)
    rfl rfl
  simpa using h

/-- C2 (confirmed): a Parallel chain's `execute()` awaits every command (the
result list enumerates them all), returns the results in original input order —
`future::join_all` yields them in input order regardless of completion order —
and reports as the chain error the error of the lowest-indexed failing command
in the input list. -/
theorem parallel_input_order_and_first_error
    (ch : CommandChain) (okOf : Command → CommandResult)
    (hmode : ch.mode = ChainExecutionMode.Parallel)
    (h : ∀ c ∈ ch.commands, c.executeResult = .ok (okOf c)) :
    (ch.execute).1 = .ok
      { results := ch.commands.map okOf
        success := !(ch.commands.any (fun c => !(okOf c).success))
        error := (ch.commands.find? (fun c => !(okOf c).success)).bind (fun c => (okOf c).error) } := by
  unfold CommandChain.execute
  rw [show ch.effective_mode = ExecutionMode.Parallel by
    simp [CommandChain.effective_mode, hmode]]
  show (CommandChain.execute_parallel ch).1 = _
  rw [CommandChain.execute_parallel]
  by_cases hempty : ch.commands.isEmpty
  · rw [if_pos hempty]
    rw [List.isEmpty_iff.mp hempty]
    rfl
  · rw [if_neg hempty]
    rw [par_fold okOf ch.commands _ h]
    simp only [if_neg (by simp : ¬ (false = true))]
    cases hfind : ch.commands.find? (fun c => !(okOf c).success) <;>
      simp [hfind]

/-- C2 witness: a three-command Parallel chain where both command 2 and
command 3 fail; the reported error is command 2's ("boom"), the lowest-indexed
failing command, and the results keep input order. -/
theorem parallel_first_error_witness :
    (CommandChain.execute ⟨"p", [cmd1, cmd2, cmd3], ChainExecutionMode.Parallel, false⟩).1 =
      .ok { results := [rOk1, rFail2, rFail3], success := false, error := some "boom" } := by
  have h := parallel_input_order_and_first_error
    ⟨"p", [cmd1, cmd2, cmd3], ChainExecutionMode.Parallel, false⟩ okOfPayload rfl
    (by intro c hc; fin_cases hc <;> rfl)
  simpa using h

/-- C6 (confirmed): an Auto chain resolves its effective mode to Sequential
exactly when some member command declares Sequential, and to Parallel otherwise
— in particular the empty Auto chain resolves to Parallel. -/
theorem auto_mode_resolution (ch : CommandChain) (h : ch.mode = ChainExecutionMode.Auto) :
    ch.effective_mode =
      (if ch.commands.any (fun c => c.execution_mode == ExecutionMode.Sequential) then
        ExecutionMode.Sequential else ExecutionMode.Parallel) ∧
    (ch.commands = [] → ch.effective_mode = ExecutionMode.Parallel) := by
  constructor
  · simp [CommandChain.effective_mode, h]
  · intro he
    simp [CommandChain.effective_mode, h, he]

/-- C6 witness: Auto with one Sequential member resolves to Sequential; the
empty Auto chain resolves to Parallel. -/
theorem auto_mode_resolution_witness :
    CommandChain.effective_mode ⟨"a", [cmd3, cmd1], ChainExecutionMode.Auto, true⟩ =
      ExecutionMode.Sequential ∧
    CommandChain.effective_mode ⟨"e", [], ChainExecutionMode.Auto, true⟩ =
      ExecutionMode.Parallel := by
  constructor
  · rw [(auto_mode_resolution ⟨"a", [cmd3, cmd1], ChainExecutionMode.Auto, true⟩ rfl).1]
    decide
  · exact (auto_mode_resolution ⟨"e", [], ChainExecutionMode.Auto, true⟩ rfl).2 rfl

/-- C3 (amended): variable resolution performs one full pass per placeholder
class in the fixed order file, environment, interactive — but each later pass
scans the string as left by the earlier passes, so a value substituted by an
earlier pass IS re-expanded when it contains a later class's placeholder: a
file-sourced value holding the text of an environment placeholder is resolved
from the environment (second conjunct: the file maps A to the literal text of
the X environment placeholder, the environment maps X to "v", and resolution
of the single file placeholder produces "echo v").  The claim's assertion that
such a value is never re-expanded fails on the code: the environment pass runs
`captures_iter` over `processed_cmd` — the string after file substitution —
not over the original template. -/
theorem variable_passes_order_and_reexpansion :
    (∀ (c : ShellCommand) (fs : String → FsRead) (parse : String → Except String Json)
        (env : String → Option String) (prompt : String → String) (path : String)
        (entries : List (String × String)),
      c.variables_file = some path →
      load_variables_from_file fs parse path = .ok entries →
      c.process_variables fs parse env prompt c.command =
        .ok (interactive_pass prompt (env_pass env prompt
          (file_pass (some (varsLookup entries)) prompt c.command)))) ∧
    cmdC3.process_variables fsOk parseC3 envC3 promptC3 cmdC3.command = .ok "echo v" := by
  constructor
  · intro c fs parse env prompt path entries hf hload
    simp [ShellCommand.process_variables, hf, hload]
  · decide

/-- C3 counterexample: with the variables file mapping A to the literal text of
an environment placeholder for X and the environment mapping X to "v", the
template holding one file placeholder resolves to "echo v" — the file-sourced
value was re-expanded by the environment pass, where the claim as stated
predicts it stays as the placeholder text. -/
theorem file_value_env_reexpansion_counterexample :
    cmdC3.process_variables fsOk parseC3 envC3 promptC3 cmdC3.command = .ok "echo v" ∧
    ¬ (cmdC3.process_variables fsOk parseC3 envC3 promptC3 cmdC3.command =
        .ok "echo \x7b$X\x7d") := by
  constructor
  · decide
  · decide

/-- C3 witness: the pass-decomposition conjunct applied at the concrete
command, file system and parse oracle. -/
theorem variable_passes_witness :
    cmdC3.process_variables fsOk parseC3 envC3 promptC3 cmdC3.command =
      .ok (interactive_pass promptC3 (env_pass envC3 promptC3
        (file_pass (some (varsLookup [("A", "\x7b$X\x7d")])) promptC3 cmdC3.command))) :=
  variable_passes_order_and_reexpansion.1 cmdC3 fsOk parseC3 envC3 promptC3 "vars.json"
    [("A", "\x7b$X\x7d")] rfl (by decide)

/-- C4 (confirmed): when a timeout is declared and the timer wins the race
against the spawned process (the timeout elapses before the process
completes), `execute_with_timeout` fails with `TimeoutError` through the error
channel — no `CommandResult` is produced, whatever the process outcome would
have been. -/
theorem declared_timeout_expiry_is_timeout_error
    (c : ShellCommand) (fs : String → FsRead) (parse : String → Except String Json)
    (env : String → Option String) (prompt : String → String)
    (proc : Except String RawOutput) (processed : String) (args : List String) (t : Nat)
    (h1 : c.process_variables fs parse env prompt c.command = .ok processed)
    (h2 : shlex_split processed = some args)
    (h3 : args.isEmpty = false)
    (h4 : c.timeout_seconds = some t) :
    c.execute_with_timeout fs parse env prompt true proc = .error CommandError.TimeoutError := by
  simp [ShellCommand.execute_with_timeout, h1, h2, h3, h4, raced]

/-- C4 witness: the spec's Scenario C — a 1-second timeout on `sleep 5`, with
the timer winning the race. -/
theorem timeout_error_witness :
    cmdSleep.execute_with_timeout fsDenied parseAny envC3 promptC3 true (.ok outOk) =
      .error CommandError.TimeoutError :=
  declared_timeout_expiry_is_timeout_error cmdSleep fsDenied parseAny envC3 promptC3
    (.ok outOk) "sleep 5" ["sleep", "5"] 1 (by decide) (by decide) (by decide) rfl

/-- C5 (amended): when the declared variables file is unreadable (open or read
fails) or its contents are not valid JSON, variable resolution — and hence
`execute()` — fails with `CommandError::ExecutionError`.  (The claim says
ParseError, but the code's `CommandError` enum has no ParseError variant at
all; `load_variables_from_file` wraps all three failures in
`ExecutionError`.) -/
theorem variable_file_failure_is_execution_error
    (c : ShellCommand) (fs : String → FsRead) (parse : String → Except String Json)
    (env : String → Option String) (prompt : String → String) (path : String)
    (hf : c.variables_file = some path)
    (h : (∃ e, fs path = FsRead.openFailed e) ∨ (∃ e, fs path = FsRead.readFailed e) ∨
         (∃ s e, fs path = FsRead.ok s ∧ parse s = .error e)) :
    (∃ m, c.process_variables fs parse env prompt c.command =
      .error (CommandError.ExecutionError m)) ∧
    (∀ (timer_wins : Bool) (proc : Except String RawOutput),
      ∃ m, c.execute_with_timeout fs parse env prompt timer_wins proc =
        .error (CommandError.ExecutionError m)) := by
  have hload : ∃ m, load_variables_from_file fs parse path =
      .error (CommandError.ExecutionError m) := by
    rcases h with ⟨e, he⟩ | ⟨e, he⟩ | ⟨s, e, hs, he⟩
    · exact ⟨"Не удалось открыть файл с переменными: " ++ e,
        by simp [load_variables_from_file, he]⟩
    · exact ⟨"Не удалось прочитать файл с переменными: " ++ e,
        by simp [load_variables_from_file, he]⟩
    · exact ⟨"Не удалось разобрать JSON: " ++ e,
        by simp [load_variables_from_file, hs, he]⟩
  obtain ⟨m, hm⟩ := hload
  have hpv : c.process_variables fs parse env prompt c.command =
      .error (CommandError.ExecutionError m) := by
    simp [ShellCommand.process_variables, hf, hm]
  exact ⟨⟨m, hpv⟩, fun tw proc =>
    ⟨m, by simp [ShellCommand.execute_with_timeout, hpv]⟩⟩

/-- C5 counterexample: with every file open failing, loading the variables file
— and variable resolution of a command that declares one — fails with
`ExecutionError`, not ParseError; indeed the code's `CommandError` enum (see
its definition above) has no ParseError variant for it to fail with. -/
theorem variable_file_unreadable_not_parse_error :
    load_variables_from_file fsDenied parseAny "vars.json" =
      .error (.ExecutionError "Не удалось открыть файл с переменными: permission denied") ∧
    cmdC3.process_variables fsDenied parseAny envC3 promptC3 cmdC3.command =
      .error (.ExecutionError "Не удалось открыть файл с переменными: permission denied") := by
  constructor
  · decide
  · decide

/-- C5 witness: the amended theorem applied at the concrete unreadable file
system. -/
theorem variable_file_failure_witness :
    ∃ m, cmdC3.process_variables fsDenied parseAny envC3 promptC3 cmdC3.command =
      .error (CommandError.ExecutionError m) :=
  (variable_file_failure_is_execution_error cmdC3 fsDenied parseAny envC3 promptC3
    "vars.json" rfl (Or.inl ⟨"permission denied", rfl⟩)).1

/-- C7 (confirmed): for a `ShellCommand` whose construction maintained the
builder invariant (the `supports_rollback` flag is set exactly when a rollback
template is stored — `with_rollback` sets both), `rollback()` fails with
`RollbackError` exactly when no rollback template was declared; otherwise it
builds a fresh command whose template is the rollback template and whose
working directory, environment variables and variables-file declaration equal
the forward command's (and whose mode is copied, with no timeout and no
rollback of its own), and executes it. -/
theorem shell_rollback_target_spec (c : ShellCommand)
    (hinv : c.supports_rollback = c.rollback_command.isSome) :
    (c.rollback_command = none ↔
      ∃ m, c.rollback_target = .error (CommandError.RollbackError m)) ∧
    (∀ rc, c.rollback_command = some rc →
      c.rollback_target = .ok
        { name := c.name ++ "_rollback", command := rc, working_dir := c.working_dir,
          env_vars := c.env_vars, mode := c.mode, supports_rollback := false,
          rollback_command := none, timeout_seconds := none,
          variables_file := c.variables_file }) ∧
    (∀ (fs : String → FsRead) (parse : String → Except String Json)
        (env : String → Option String) (prompt : String → String)
        (timer_wins : Bool) (proc : Except String RawOutput),
      c.rollback fs parse env prompt timer_wins proc =
        c.rollback_target.bind (fun t => t.execute fs parse env prompt timer_wins proc)) := by
  refine ⟨?_, ?_, ?_⟩
  · cases hr : c.rollback_command with
    | none =>
      rw [hr] at hinv
      constructor
      · intro _
        exact ⟨"Команда не поддерживает откат", by
          simp [ShellCommand.rollback_target, hinv]⟩
      · intro _; rfl
    | some rc =>
      rw [hr] at hinv
      constructor
      · intro hcontra; cases hcontra
      · rintro ⟨m, hm⟩
        rw [ShellCommand.rollback_target, hinv] at hm
        simp [hr] at hm
  · intro rc hrc
    rw [hrc] at hinv
    rw [ShellCommand.rollback_target, hinv]
    simp [hrc, ShellCommand.new]
  · intro fs parse env prompt tw proc
    rfl

/-- C7 witness: a command built by `new` + `with_rollback` satisfies the
invariant, and its rollback target is the fresh command with the rollback
template and the copied configuration. -/
theorem shell_rollback_target_witness :
    cmdRb.rollback_target = .ok
      { name := "dep_rollback", command := "rmdir x", working_dir := none, env_vars := [],
        mode := ExecutionMode.Sequential, supports_rollback := false,
        rollback_command := none, timeout_seconds := none, variables_file := none } :=
  (shell_rollback_target_spec cmdRb rfl).2.1 "rmdir x" rfl

/-- The trace component of the composite rollback loop: the supporting
children, in the order the loop visits them. -/
theorem comp_rollback_trace :
    ∀ (l : List Command) (out : String) (tr : List String),
      (composite_rollback_loop l out tr).2 =
        tr ++ (l.filter (fun c => c.supports_rollback)).map (fun c => c.name)
  | [], out, tr => by simp [composite_rollback_loop]
  | c :: rest, out, tr => by
    by_cases h : c.supports_rollback <;>
      simp [composite_rollback_loop, h, comp_rollback_trace rest, List.filter_cons]

/-- C8 (confirmed): a composite supports rollback exactly when some child does,
and its rollback pass invokes `rollback()` on exactly the children that support
rollback, in reverse declaration order.  `rollback_commands` reads only the
declared child list — never any record of execution — so the pass is
unconditional: it is the same whether or not any child ever executed. -/
theorem composite_rollback_support_and_order (c : CompositeCommand) :
    (c.supports_rollback = true ↔ ∃ ch ∈ c.commands, ch.supports_rollback = true) ∧
    (c.rollback).2 =
      (c.commands.reverse.filter (fun ch => ch.supports_rollback)).map (fun ch => ch.name) := by
  constructor
  · simp [CompositeCommand.supports_rollback, List.any_eq_true]
  · show (c.rollback_commands).2 = _
    rw [CompositeCommand.rollback_commands]
    rw [comp_rollback_trace]
    simp

/-- C8 witness: a three-child composite whose first declared child lacks
rollback support; rollback visits the supporting children in reverse
declaration order. -/
theorem composite_rollback_witness :
    compRbW.supports_rollback = true ∧ (compRbW.rollback).2 = ["c2", "c1"] := by
  have h := composite_rollback_support_and_order compRbW
  refine ⟨h.1.mpr ⟨cmd1, by decide, rfl⟩, ?_⟩
  rw [h.2]
  decide

/-- The sequential composite loop always returns through the `Ok` channel. -/
theorem composite_seq_loop_ok (cname : String) :
    ∀ (l : List Command) (acc : String), ∃ r, composite_seq_loop cname l acc = .ok r
  | [], _ => ⟨_, rfl⟩
  | c :: rest, acc => by
    cases hce : c.executeResult with
    | ok r =>
      by_cases hs : r.success
      · obtain ⟨r', hr'⟩ := composite_seq_loop_ok cname rest
          (acc ++ c.name ++ ":\n" ++ r.output ++ "\n")
        exact ⟨r', by rw [composite_seq_loop, hce]; simpa [hs] using hr'⟩
      · exact ⟨(CommandResult.new cname).markFailure
          ("Подкоманда " ++ c.name ++ " завершилась с ошибкой: " ++
            r.error.getD "Неизвестная ошибка") r.exit_code,
          by rw [composite_seq_loop, hce]; simp [hs]⟩
    | error e => exact ⟨(CommandResult.new cname).markFailure
        ("Ошибка при выполнении подкоманды " ++ c.name ++ ": " ++ e.toString) none,
        by rw [composite_seq_loop, hce]⟩

/-- Running the sequential composite loop across a prefix of children that all
return successful results only changes the accumulated output. -/
theorem composite_seq_loop_prefix (cname : String) :
    ∀ (pre rest : List Command) (acc : String),
      (∀ x ∈ pre, ∃ rx, x.executeResult = .ok rx ∧ rx.success = true) →
      ∃ acc', composite_seq_loop cname (pre ++ rest) acc = composite_seq_loop cname rest acc'
  | [], rest, acc, _ => ⟨acc, rfl⟩
  | c :: pre, rest, acc, h => by
    obtain ⟨rc, hce, hs⟩ := h c (by simp)
    obtain ⟨acc', hacc⟩ := composite_seq_loop_prefix cname pre rest
      (acc ++ c.name ++ ":\n" ++ rc.output ++ "\n") (fun x hx => h x (by simp [hx]))
    refine ⟨acc', ?_⟩
    rw [List.cons_append, composite_seq_loop, hce]
    simpa [hs] using hacc

/-- The parallel composite execution always returns through the `Ok` channel. -/
theorem composite_par_ok (c : CompositeCommand) : ∃ r, c.execute_parallel = .ok r := by
  rw [CompositeCommand.execute_parallel]
  by_cases h : (c.commands.foldl composite_par_step
      { all_output := "", has_errors := false, first_error := none,
        first_exit_code := none }).has_errors
  · exact ⟨_, by rw [if_pos h]⟩
  · exact ⟨_, by rw [if_neg h]⟩

/-- Folding the parallel result loop over children that all return successful
results changes only the accumulated output. -/
theorem comp_par_ok_prefix :
    ∀ (pre : List Command) (st : CompParState),
      (∀ x ∈ pre, ∃ rx, x.executeResult = .ok rx ∧ rx.success = true) →
      st.has_errors = false →
      ∃ out, pre.foldl composite_par_step st =
        { all_output := out, has_errors := false, first_error := st.first_error,
          first_exit_code := st.first_exit_code }
  | [], st, _, hst => ⟨st.all_output, by cases st; simp_all⟩
  | c :: pre, st, h, hst => by
    obtain ⟨rc, hce, hs⟩ := h c (by simp)
    have hstep : composite_par_step st c =
        { st with all_output := st.all_output ++ c.name ++ ":\n" ++ rc.output ++ "\n" } := by
      simp [composite_par_step, hce, hs, hst]
    rw [List.foldl_cons, hstep]
    exact comp_par_ok_prefix pre _ (fun x hx => h x (by simp [hx])) hst

/-- Once the parallel result loop has recorded an error, further children leave
the error state (the flag, the first error and its exit code) untouched. -/
theorem comp_par_err_preserved :
    ∀ (l : List Command) (st : CompParState),
      st.has_errors = true →
      ∃ out, l.foldl composite_par_step st =
        { all_output := out, has_errors := true, first_error := st.first_error,
          first_exit_code := st.first_exit_code }
  | [], st, hst => ⟨st.all_output, by cases st; simp_all⟩
  | c :: l, st, hst => by
    cases hce : c.executeResult with
    | ok r =>
      have hstep : composite_par_step st c =
          { st with all_output := st.all_output ++ c.name ++ ":\n" ++
              (if r.success then r.output else r.error.getD "Неизвестная ошибка") ++ "\n" } := by
        simp [composite_par_step, hce, hst]
      rw [List.foldl_cons, hstep]
      exact comp_par_err_preserved l _ hst
    | error e =>
      have hstep : composite_par_step st c =
          { st with all_output := st.all_output ++ c.name ++
              ": Ошибка: " ++ e.toString ++ "\n" } := by
        simp [composite_par_step, hce, hst]
      rw [List.foldl_cons, hstep]
      exact comp_par_err_preserved l _ hst

/-- C9 (amended): a composite's `execute()` and `rollback()` never return the
`Err` channel, and `rollback()` always returns an `Ok` result with
`success = true` whatever the children's rollback outcomes.  A child whose
`execute()` errs is folded into an `Ok` result with `success = false`; in
Sequential mode its error message names the erring child, while in Parallel
mode the message is the fixed wrapper around the first-by-input-order error's
rendering — it names no child (the labelled `all_output`, the only place the
child names appear, is discarded on the failure path,
composite_command.rs lines 134-141). -/
theorem composite_never_errs (c : CompositeCommand) :
    (∃ r, c.execute = .ok r) ∧
    (∃ r, (c.rollback).1 = .ok r ∧ r.success = true) ∧
    (∀ (pre : List Command) (ch : Command) (rest : List Command) (e : CommandError),
      c.mode = ExecutionMode.Sequential → c.commands = pre ++ ch :: rest →
      (∀ x ∈ pre, ∃ rx, x.executeResult = .ok rx ∧ rx.success = true) →
      ch.executeResult = .error e →
      ∃ r, c.execute = .ok r ∧ r.success = false ∧
        r.error = some ("Ошибка при выполнении подкоманды " ++ ch.name ++ ": " ++
          e.toString)) ∧
    (∀ (pre : List Command) (ch : Command) (rest : List Command) (e : CommandError),
      c.mode = ExecutionMode.Parallel → c.commands = pre ++ ch :: rest →
      (∀ x ∈ pre, ∃ rx, x.executeResult = .ok rx ∧ rx.success = true) →
      ch.executeResult = .error e →
      c.execute = .ok ((CommandResult.new c.name).markFailure
        ("Некоторые подкоманды завершились с ошибкой: " ++ e.toString) none)) := by
  refine ⟨?_, ⟨_, rfl, rfl⟩, ?_, ?_⟩
  · cases hm : c.mode with
    | Sequential =>
      have : c.execute = composite_seq_loop c.name c.commands "" := by
        simp [CompositeCommand.execute, hm, CompositeCommand.execute_sequential]
      rw [this]
      exact composite_seq_loop_ok c.name c.commands ""
    | Parallel =>
      have : c.execute = c.execute_parallel := by simp [CompositeCommand.execute, hm]
      rw [this]
      exact composite_par_ok c
  · intro pre ch rest e hm hcmds hpre hce
    have hexec : c.execute = composite_seq_loop c.name c.commands "" := by
      simp [CompositeCommand.execute, hm, CompositeCommand.execute_sequential]
    rw [hexec, hcmds]
    obtain ⟨acc', hacc⟩ := composite_seq_loop_prefix c.name pre (ch :: rest) "" hpre
    rw [hacc, composite_seq_loop, hce]
    exact ⟨_, rfl, rfl, rfl⟩
  · intro pre ch rest e hm hcmds hpre hce
    have hexec : c.execute = c.execute_parallel := by simp [CompositeCommand.execute, hm]
    rw [hexec]
    simp only [CompositeCommand.execute_parallel]
    rw [hcmds, List.foldl_append]
    obtain ⟨out1, h1⟩ := comp_par_ok_prefix pre
      { all_output := "", has_errors := false, first_error := none, first_exit_code := none }
      hpre rfl
    rw [h1]
    have hstep : composite_par_step
        { all_output := out1, has_errors := false, first_error := none,
          first_exit_code := none } ch =
        { all_output := out1 ++ ch.name ++ ": Ошибка: " ++ e.toString ++ "\n",
          has_errors := true, first_error := some e.toString, first_exit_code := none } := by
      simp [composite_par_step, hce]
    rw [List.foldl_cons, hstep]
    obtain ⟨out2, h2⟩ := comp_par_err_preserved rest
      { all_output := out1 ++ ch.name ++ ": Ошибка: " ++ e.toString ++ "\n",
        has_errors := true, first_error := some e.toString, first_exit_code := none } rfl
    rw [h2]
    simp

/-- C9 counterexample: a Parallel composite whose only child (named "ce") errs.
The folded `Ok` failure result's error message is the fixed wrapper around the
error's rendering; the child's name appears nowhere in it, where the claim as
stated predicts the result names that child. -/
theorem parallel_err_child_not_named :
    compPar.execute = .ok ((CommandResult.new "gp").markFailure
      ("Некоторые подкоманды завершились с ошибкой: " ++
        (CommandError.ExecutionError "взрыв").toString) none) ∧
    ¬ List.IsInfix "ce".toList ("Некоторые подкоманды завершились с ошибкой: " ++
      (CommandError.ExecutionError "взрыв").toString).toList := by
  constructor
  · decide
  · decide

/-- C9 witness: the sequential conjunct at a composite whose second child errs
(the failure names the child), and the parallel conjunct at the one-child
parallel composite (the failure carries the fixed, child-nameless wrapper). -/
theorem composite_never_errs_witness :
    (∃ r, compW.execute = .ok r ∧ r.success = false ∧
      r.error = some ("Ошибка при выполнении подкоманды ce: " ++
        (CommandError.ExecutionError "взрыв").toString)) ∧
    compPar.execute = .ok ((CommandResult.new "gp").markFailure
      ("Некоторые подкоманды завершились с ошибкой: " ++
        (CommandError.ExecutionError "взрыв").toString) none) :=
  ⟨(composite_never_errs compW).2.2.1 [cmd1] cmdErr [] (.ExecutionError "взрыв") rfl rfl
    (by intro x hx; simp only [List.mem_singleton] at hx; subst hx; exact ⟨rOk1, rfl, rfl⟩)
    rfl,
   (composite_never_errs compPar).2.2.2 [] cmdErr [] (.ExecutionError "взрыв") rfl rfl
    (by intro x hx; cases hx) rfl⟩

/-- C10 (confirmed): when the resolved template cannot be shlex-tokenized (an
unbalanced quote) or tokenizes to no words (an empty command), execution fails
with `ExecutionError` — and does so for every possible spawn outcome, i.e.
before any process is spawned. -/
theorem untokenizable_command_execution_error
    (c : ShellCommand) (fs : String → FsRead) (parse : String → Except String Json)
    (env : String → Option String) (prompt : String → String) (processed : String)
    (h1 : c.process_variables fs parse env prompt c.command = .ok processed)
    (h2 : shlex_split processed = none ∨ shlex_split processed = some []) :
    ∀ (timer_wins : Bool) (proc : Except String RawOutput),
      ∃ m, c.execute_with_timeout fs parse env prompt timer_wins proc =
        .error (CommandError.ExecutionError m) := by
  intro tw proc
  rcases h2 with h2 | h2
  · exact ⟨"Не удалось разобрать команду: " ++ processed,
      by simp [ShellCommand.execute_with_timeout, h1, h2]⟩
  · exact ⟨"Пустая команда", by simp [ShellCommand.execute_with_timeout, h1, h2]⟩

/-- C10 witness: a template carrying an unbalanced double quote fails with
`ExecutionError` regardless of the spawn outcome. -/
theorem untokenizable_command_witness :
    ∃ m, cmdQuote.execute_with_timeout fsDenied parseAny envC3 promptC3 false (.ok outOk) =
      .error (CommandError.ExecutionError m) :=
  untokenizable_command_execution_error cmdQuote fsDenied parseAny envC3 promptC3
    "echo \"unbalanced" (by decide) (Or.inl (by decide)) false (.ok outOk)
